import Mathlib

/-!
Verification development for the `redditor` Devvit app.

Shallow embedding of the core of the repository:
  * the Redis-backed bounded conversation store
    (`storeConversation`, `getConversationHistory` in
    `src/devvit-app/src/main.ts`, AI-service section),
  * the provider-polymorphic response generator
    (`generateAIResponse`, `generateOpenAIResponse`,
    `generateAnthropicResponse`, same file),
  * the two event handlers (`PostSubmit` and `CommentCreate` triggers in
    `src/devvit-app/src/triggers/post-submit.ts`).

JavaScript strings are embedded as `List Char`; lowercasing uses
`Char.toLower` (which agrees with `String.prototype.toLowerCase` on the
ASCII fragment exercised here).  Effects on collaborators (generation
calls, reply submission, counter increments, conversation-store writes)
are recorded as an explicit action trace.
-/

namespace Redditor

/-- JavaScript strings, embedded as lists of characters. -/
abbrev Str := List Char

/-- Conversion from Lean string literals to the embedded string type. -/
def strOf (s : String) : Str := s.toList

/-- `String.prototype.toLowerCase`, on the ASCII fragment. -/
def lowerStr (s : Str) : Str := s.map Char.toLower

/-- Contiguous-substring containment, as `String.prototype.includes`. -/
def strIncludes (hay needle : Str) : Bool :=
  match hay with
  | [] => needle.isEmpty
  | _ :: rest => needle.isPrefixOf hay || strIncludes rest needle

/-- `String.prototype.includes`, combined with lowercasing of both sides as the
source does: case-insensitive substring containment. -/
def containsCI (needle hay : Str) : Bool :=
  strIncludes (lowerStr hay) (lowerStr needle)

/-- Whitespace characters stripped by `String.prototype.trim`
(ASCII fragment). -/
def isWsChar (c : Char) : Bool :=
  c = ' ' || c = '\t' || c = '\n' || c = '\r'

/-- `String.prototype.trim`: drop whitespace from both ends. -/
def trimStr (s : Str) : Str :=
  ((s.dropWhile isWsChar).reverse.dropWhile isWsChar).reverse

/-- JavaScript `v || d` for an optional string setting: `undefined` and the
empty string are falsy and fall back to the default. -/
def jsOrStr (v : Option Str) (d : Str) : Str :=
  match v with
  | none => d
  | some s => if s.isEmpty then d else s

/-- JavaScript `!v` for an optional string: true exactly when the value is
`undefined` or the empty string. -/
def strFalsy (v : Option Str) : Bool :=
  match v with
  | none => true
  | some s => s.isEmpty

/-- JavaScript `v || d` for an optional array setting: only `undefined` is
falsy (an empty array is truthy and kept). -/
def jsOrList (v : Option (List Str)) (d : List Str) : List Str :=
  v.getD d

/- ------------------------------------------------------------------
ConversationStore (`storeConversation` / `getConversationHistory`).

The Redis sorted set under key `conversation:<userId>` is embedded as a
list of (score, member) pairs kept sorted by (score, member).  The member
is `JSON.stringify(\x7btimestamp, question, answer\x7d)`; since that encoding is
injective we embed the member as the decoded record itself.  Redis breaks
equal-score ties by lexicographic order on the member strings; that
tie-break is modelled by a lexicographic order on the decoded fields
(equal scores force equal timestamps, so the order is decided by the
question and answer fields, as it is on the JSON encoding).
------------------------------------------------------------------ -/

/-- The decoded sorted-set member stored by `storeConversation`. -/
structure ConvEntry where
  timestamp : Nat
  question : Str
  answer : Str
deriving DecidableEq, Repr

/-- Lexicographic comparison of embedded strings (models byte order on the
ASCII fragment of the JSON member encoding). -/
def strLeB : Str → Str → Bool
  | [], _ => true
  | _ :: _, [] => false
  | a :: as, b :: bs => if a = b then strLeB as bs else decide (a.toNat < b.toNat)

/-- Tie-break order on members with equal scores (see section comment). -/
def memberLeB (a b : ConvEntry) : Bool :=
  if a.question = b.question then strLeB a.answer b.answer
  else strLeB a.question b.question

/-- The (score, member) order maintained by the Redis sorted set. -/
def entryKeyLeB (a b : Nat × ConvEntry) : Bool :=
  decide (a.1 < b.1) || (decide (a.1 = b.1) && memberLeB a.2 b.2)

/-- A Redis sorted set, as its sorted (score, member) representation. -/
abbrev ZSet := List (Nat × ConvEntry)

/-- Insert a (score, member) pair at its sorted position. -/
def zInsertSorted (x : Nat × ConvEntry) : ZSet → ZSet
  | [] => [x]
  | y :: ys => if entryKeyLeB x y then x :: y :: ys else y :: zInsertSorted x ys

/-- `redis.zAdd(key, \x7bscore, member\x7d)`: if the member is already present its
score is updated, otherwise the pair is inserted. -/
def zAdd (s : ZSet) (score : Nat) (m : ConvEntry) : ZSet :=
  zInsertSorted (score, m) (s.filter (fun p => decide (p.2 ≠ m)))

/-- `redis.zCard(key)`: number of members. -/
def zCard (s : ZSet) : Nat := s.length

/-- `redis.zRemRangeByRank(key, a, b)`: remove the members with rank in
`[a, b]` (ascending (score, member) order, as the representation is kept). -/
def zRemRangeByRank (s : ZSet) (a b : Nat) : ZSet :=
  s.take a ++ s.drop (b + 1)

/-- `redis.zRange(key, a, b)`: the members with rank in `[a, b]`. -/
def zRange (s : ZSet) (a b : Nat) : ZSet :=
  (s.drop a).take (b + 1 - a)

/-- `storeConversation` from `main.ts` (AI-service section), acting on the
sorted set for one user's key; `Date.now()` is passed in as `timestamp`.
Inserts the JSON member with the timestamp as score, then if the
cardinality exceeds 5 removes ranks `0 .. count - 6`. -/
def storeConversation (s : ZSet) (timestamp : Nat) (question answer : Str) : ZSet :=
  let member : ConvEntry := ⟨timestamp, question, answer⟩
  let s1 := zAdd s timestamp member
  let count := zCard s1
  if 5 < count then zRemRangeByRank s1 0 (count - 6) else s1

/-- `getConversationHistory` from `main.ts`: `zRange(key, 0, 4)` followed by
`JSON.parse` of each member. -/
def getConversationHistory (s : ZSet) : List ConvEntry :=
  (zRange s 0 4).map Prod.snd

/-- A sequence of sequential `storeConversation` calls for one user,
starting from an absent key; each element is (timestamp, question, answer). -/
def appendSeq (l : List (Nat × Str × Str)) : ZSet :=
  l.foldl (fun s e => storeConversation s e.1 e.2.1 e.2.2) []

/-- The (score, member) pair produced by appending one element. -/
def toPair (e : Nat × Str × Str) : Nat × ConvEntry :=
  (e.1, ⟨e.1, e.2.1, e.2.2⟩)

/-- The last `min 5 (length l)` elements of a list. -/
def keepLast5 (l : List α) : List α := l.drop (l.length - 5)

/- ------------------------------------------------------------------
Question extraction: `content.replace(new RegExp(triggerKeyword, 'gi'), '')`.

The handlers pass the configured keyword to the `RegExp` constructor as a
PATTERN, not as a literal string.  The JavaScript regular-expression
language is modelled on the fragment the keyword setting exercises:
patterns built from literal characters and the `.` wildcard.  A keyword
containing any other regular-expression metacharacter is outside the
modelled fragment and compilation returns `none`, which the handlers treat
as the `RegExp` constructor throwing (as it does for keywords such as
`"("`); no theorem below instantiates a keyword that JavaScript would
accept but this fragment refuses.
------------------------------------------------------------------ -/

/-- One atom of the modelled pattern fragment. -/
inductive KwAtom where
  | lit (c : Char)
  | dot
deriving DecidableEq, Repr

/-- JavaScript regular-expression metacharacters (the braces are written via
their code points). -/
def isRegexMeta (c : Char) : Bool :=
  c = '\\' || c = '^' || c = '$' || c = '.' || c = '*' || c = '+' || c = '?' ||
  c = '(' || c = ')' || c = '[' || c = ']' || c = Char.ofNat 123 ||
  c = Char.ofNat 125 || c = '|'

/-- `new RegExp(kw, 'gi')` on the modelled fragment: each `.` compiles to the
wildcard, each non-metacharacter to a literal; any other metacharacter
makes compilation fail (`none` = the constructor throws). -/
def compileKeywordRegex (kw : Str) : Option (List KwAtom) :=
  kw.foldr
    (fun c acc =>
      match acc with
      | none => none
      | some p =>
        if c = '.' then some (KwAtom.dot :: p)
        else if isRegexMeta c then none
        else some (KwAtom.lit c :: p))
    (some [])

/-- JavaScript line terminators, which `.` does not match. -/
def isLineTerm (c : Char) : Bool :=
  c = '\n' || c = '\r' || c = Char.ofNat 0x2028 || c = Char.ofNat 0x2029

/-- Whether one atom matches one character, under the `i` flag. -/
def atomMatches (a : KwAtom) (c : Char) : Bool :=
  match a with
  | .lit l => c.toLower = l.toLower
  | .dot => !(isLineTerm c)

/-- Try to match the pattern against a prefix of `s`; on success return the
remaining suffix. -/
def matchesAt (p : List KwAtom) (s : Str) : Option Str :=
  match p, s with
  | [], rest => some rest
  | _ :: _, [] => none
  | a :: p', c :: s' => if atomMatches a c then matchesAt p' s' else none

/-- The scan of `String.prototype.replace` with a `g`-flagged regex and the
empty replacement string, with explicit fuel so that the recursion is
structural (the scan consumes at least one character of fuel per step, so
any fuel at least the text's length yields the replacement): remove each
non-overlapping match left to right; an empty-width match consumes no
input and the scan advances one character. -/
def replaceAllPAux (p : List KwAtom) : Nat → Str → Str
  | _, [] => []
  | 0, s => s
  | fuel + 1, c :: rest =>
    match matchesAt p (c :: rest) with
    | some rest' =>
      if rest'.length = (c :: rest).length then c :: replaceAllPAux p fuel rest
      else replaceAllPAux p fuel rest'
    | none => c :: replaceAllPAux p fuel rest

/-- `content.replace(regex, '')` for a `gi`-flagged regex: the scan with
enough fuel to consume the whole text (an empty pattern therefore leaves
the text unchanged, as in JavaScript). -/
def replaceAllP (p : List KwAtom) (s : Str) : Str :=
  replaceAllPAux p s.length s

/-- Fuelled scan for the literal reading of keyword stripping (see
`specStripCI`). -/
def specStripAux (kw : Str) : Nat → Str → Str
  | _, [] => []
  | 0, s => s
  | fuel + 1, c :: rest =>
    if kw.isEmpty = false ∧ (lowerStr kw).isPrefixOf (lowerStr (c :: rest)) then
      specStripAux kw fuel (rest.drop (kw.length - 1))
    else c :: specStripAux kw fuel rest

/-- Modelled from the spec's wording, as the reference point for claim C10:
remove every case-insensitive occurrence of the LITERAL keyword, scanning
left to right, non-overlapping. -/
def specStripCI (kw : Str) (s : Str) : Str :=
  specStripAux kw s.length s

/- ------------------------------------------------------------------
AI service (`main.ts`, AI-service section): settings, provider requests,
and the three generation functions.  `fetch` outcomes and parsed response
payloads are supplied by an explicit `World`; a call that throws in the
source is an `Except.error` here, caught by `generateAIResponse`.
------------------------------------------------------------------ -/

/-- The app settings read by the core (`Devvit.addSettings` keys).  `none`
models an unset setting (`settings.get` returning `undefined`). -/
structure Settings where
  openaiKey : Option Str
  anthropicKey : Option Str
  aiProvider : Option (List Str)
  autoReplyEnabled : Option Bool
  triggerKeyword : Option Str
deriving DecidableEq, Repr

/-- `const selectedProvider = (provider || ['openai'])[0] || 'openai'`. -/
def selectedProvider (s : Settings) : Str :=
  jsOrStr (jsOrList s.aiProvider [strOf "openai"]).head? (strOf "openai")

/-- The fixed system prompt (`SYSTEM_PROMPT` in `main.ts`). -/
def systemPrompt : Str :=
  strOf ("You are a helpful Reddit assistant. Your responses should be:\n- Concise and to the point (Reddit users prefer shorter responses)\n- Friendly and conversational\n- Accurate and factual\n- Include markdown formatting where appropriate\n- Respectful of Reddit culture and community guidelines\n\nIf you don't know something, say so. Don't make things up.")

/-- The request body built for a provider call.  `temperature` is the
literal decimal written in the JSON body, `none` when the body has no
temperature property.  `systemField` is Anthropic's top-level `system`
property; OpenAI instead carries the system prompt as the first message. -/
structure ProviderRequest where
  url : Str
  model : Str
  maxTokens : Nat
  temperature : Option Str
  systemField : Option Str
  messages : List (Str × Str)
deriving DecidableEq, Repr

/-- A parsed OpenAI chat-completion message (`content` may be absent). -/
structure OAIMessage where
  content : Option Str
deriving DecidableEq, Repr

/-- A parsed OpenAI chat-completion choice (`message` may be absent). -/
structure OAIChoice where
  message : Option OAIMessage
deriving DecidableEq, Repr

/-- The body of an OpenAI response: either not parseable as JSON
(`response.json()` throws), or parsed with an optional `choices` array
(when the array is absent, indexing `data.choices[0]` throws). -/
inductive OAIData where
  | notJson
  | parsed (choices : Option (List OAIChoice))
deriving DecidableEq, Repr

/-- A parsed Anthropic content block (`text` may be absent). -/
structure AnthBlock where
  text : Option Str
deriving DecidableEq, Repr

/-- The body of an Anthropic response, analogous to `OAIData`. -/
inductive AnthData where
  | notJson
  | parsed (content : Option (List AnthBlock))
deriving DecidableEq, Repr

/-- The outcome of one `fetch`: a network failure (the promise rejects) or
a response with its `ok` flag, status and body. -/
inductive FetchOutcome (δ : Type) where
  | netErr
  | resp (ok : Bool) (status : Nat) (data : δ)
deriving DecidableEq, Repr

/-- The external world one generation observes: the outcome each provider's
endpoint would return if called. -/
structure World where
  oai : FetchOutcome OAIData
  anth : FetchOutcome AnthData
deriving DecidableEq, Repr

/-- Result of one provider function: the request actually sent (`none`
when the function returned before any network call) and either the
returned string or the message of the error it threw. -/
structure CallResult where
  request : Option ProviderRequest
  outcome : Except Str Str
deriving Repr

/-- `data.choices[0]?.message?.content`. -/
def oaiContentOf (cs : List OAIChoice) : Option Str :=
  cs.head?.bind (fun c => c.message.bind (fun m => m.content))

/-- `data.content[0]?.text`. -/
def anthTextOf (bs : List AnthBlock) : Option Str :=
  bs.head?.bind (fun b => b.text)

/-- The fixed message returned when `openai_key` is absent. -/
def oaiNotConfigured : Str :=
  strOf ("OpenAI API key not configured. Please contact the subreddit moderators.")

/-- The fixed message returned when `anthropic_key` is absent. -/
def anthNotConfigured : Str :=
  strOf ("Anthropic API key not configured. Please contact the subreddit moderators.")

/-- The fixed default used when the parsed payload has no (truthy) text. -/
def unableMsg : Str := strOf ("Unable to generate response.")

/-- The fixed apologetic fallback returned by `generateAIResponse`'s catch. -/
def apologyMsg : Str :=
  strOf ("I'm sorry, I encountered an error processing your request. Please try again later.")

/-- The request body built by `generateOpenAIResponse`. -/
def oaiRequest (question : Str) : ProviderRequest where
  url := strOf ("https://api.openai.com/v1/chat/completions")
  model := strOf ("gpt-4-turbo-preview")
  maxTokens := 500
  temperature := some (strOf "0.7")
  systemField := none
  messages := [(strOf "system", systemPrompt), (strOf "user", question)]

/-- The request body built by `generateAnthropicResponse`; note the body
has no temperature property. -/
def anthRequest (question : Str) : ProviderRequest where
  url := strOf ("https://api.anthropic.com/v1/messages")
  model := strOf ("claude-3-sonnet-20240229")
  maxTokens := 500
  temperature := none
  systemField := some systemPrompt
  messages := [(strOf "user", question)]

/-- `generateOpenAIResponse` from `main.ts`: early return when the key is
falsy; otherwise one `fetch`, throwing on network failure, non-ok status,
unparseable body, or a body with no `choices` array; otherwise return the
first choice's content, or the fixed default when that is absent/empty. -/
def generateOpenAIResponse (s : Settings) (w : FetchOutcome OAIData)
    (question : Str) : CallResult :=
  if strFalsy s.openaiKey then ⟨none, .ok oaiNotConfigured⟩
  else
    let req := oaiRequest question
    match w with
    | .netErr => ⟨some req, .error (strOf "network failure")⟩
    | .resp ok _ data =>
      if ok = false then ⟨some req, .error (strOf "OpenAI API error")⟩
      else
        match data with
        | .notJson => ⟨some req, .error (strOf "response.json() failed")⟩
        | .parsed none => ⟨some req, .error (strOf "TypeError: undefined choices")⟩
        | .parsed (some cs) =>
          ⟨some req, .ok (jsOrStr (oaiContentOf cs) unableMsg)⟩

/-- `generateAnthropicResponse` from `main.ts`, analogous. -/
def generateAnthropicResponse (s : Settings) (w : FetchOutcome AnthData)
    (question : Str) : CallResult :=
  if strFalsy s.anthropicKey then ⟨none, .ok anthNotConfigured⟩
  else
    let req := anthRequest question
    match w with
    | .netErr => ⟨some req, .error (strOf "network failure")⟩
    | .resp ok _ data =>
      if ok = false then ⟨some req, .error (strOf "Anthropic API error")⟩
      else
        match data with
        | .notJson => ⟨some req, .error (strOf "response.json() failed")⟩
        | .parsed none => ⟨some req, .error (strOf "TypeError: undefined content")⟩
        | .parsed (some bs) =>
          ⟨some req, .ok (jsOrStr (anthTextOf bs) unableMsg)⟩

/-- The diagnostic log emitted by `generateAIResponse`'s catch block. -/
def genErrorLog (provider : Str) : Str :=
  strOf ("AI generation error (") ++ provider ++ strOf (")")

/-- What one `generateAIResponse` call produces: the returned text, the
request sent to the provider endpoint (`none` when no network call was
made), and the diagnostic logs emitted. -/
structure GenOutcome where
  text : Str
  request : Option ProviderRequest
  logs : List Str
deriving DecidableEq, Repr

/-- `generateAIResponse` from `main.ts`: dispatch on the selected provider,
catch any thrown failure and turn it into the apologetic fallback plus a
log naming the provider. -/
def generateAIResponse (s : Settings) (w : World) (question : Str) : GenOutcome :=
  let selected := selectedProvider s
  let call :=
    if selected = strOf "anthropic" then generateAnthropicResponse s w.anth question
    else generateOpenAIResponse s w.oai question
  match call.outcome with
  | .ok t => ⟨t, call.request, []⟩
  | .error _ => ⟨apologyMsg, call.request, [genErrorLog selected]⟩

/-- The OpenAI fetch outcomes on which `generateOpenAIResponse` throws:
network failure, non-ok status, unparseable body, or a parsed body with no
`choices` array. -/
def oaiThrowing : FetchOutcome OAIData → Bool
  | .netErr => true
  | .resp ok _ data =>
    !ok ||
      (match data with
       | .notJson => true
       | .parsed none => true
       | .parsed (some _) => false)

/-- The Anthropic fetch outcomes on which `generateAnthropicResponse`
throws, analogous to `oaiThrowing`. -/
def anthThrowing : FetchOutcome AnthData → Bool
  | .netErr => true
  | .resp ok _ data =>
    !ok ||
      (match data with
       | .notJson => true
       | .parsed none => true
       | .parsed (some _) => false)

/- ------------------------------------------------------------------
Trigger handlers (`src/devvit-app/src/triggers/post-submit.ts`): the
`PostSubmit` and `CommentCreate` `onEvent` callbacks.  Each handler is
embedded as a function producing the trace of collaborator calls it makes,
in program order.  The whole body runs inside a try/catch whose catch only
logs, so a throw truncates the trace.  `submitOk` is whether
`reddit.submitComment` succeeds; when it throws, the increment that
follows it in the source is not reached.
------------------------------------------------------------------ -/

/-- The `PostV2` fields the handler reads. -/
structure Post where
  id : Str
  authorId : Str
  title : Str
  selftext : Option Str
deriving DecidableEq, Repr

/-- The `CommentV2` fields the handler reads. -/
structure Comment where
  id : Str
  author : Str
  body : Str
deriving DecidableEq, Repr

/-- The agent's own identity (`reddit.getCurrentUser()`). -/
structure User where
  id : Str
  username : Str
deriving DecidableEq, Repr

/-- One collaborator call made by a handler.  `storeConv` is the
`storeConversation` collaborator; it is part of the vocabulary so its
absence from a trace is expressible. -/
inductive Action where
  | generate (question : Str)
  | submitComment (targetId : Str) (text : Str)
  | hIncrBy (field : Str) (amount : Nat)
  | storeConv (userId : Str) (question : Str) (answer : Str)
deriving DecidableEq, Repr

/-- Whether an action is a conversation-store append. -/
def Action.isStoreConv : Action → Bool
  | .storeConv _ _ _ => true
  | _ => false

/-- `` `$\x7bpost.title\x7d $\x7bpost.selftext || ''\x7d` ``: the raw text the post
handler matches against. -/
def postContent (p : Post) : Str :=
  p.title ++ [' '] ++ p.selftext.getD []

/-- The effective trigger keyword: `settings.get('trigger_keyword') || '!ask'`. -/
def effectiveKeyword (s : Settings) : Str :=
  jsOrStr s.triggerKeyword (strOf "!ask")

/-- The `PostSubmit` `onEvent` handler, as its collaborator-call trace.
Gates, in source order: auto-reply enabled; post present; not the agent's
own post; keyword contained (case-insensitively) in title+body.  Then the
keyword is compiled as a regex (a throw is swallowed by the catch),
the question extracted, the response generated and submitted, and on a
successful submit `posts_processed` is incremented.  No call to
`storeConversation` appears anywhere in the source of this handler. -/
def postSubmitHandler (s : Settings) (ev : Option Post) (currentUser : Option User)
    (w : World) (submitOk : Bool) : List Action :=
  if s.autoReplyEnabled = some true then
    match ev with
    | none => []
    | some post =>
      if currentUser.map User.id = some post.authorId then []
      else
        let kw := effectiveKeyword s
        let content := postContent post
        if containsCI kw content then
          match compileKeywordRegex kw with
          | none => []
          | some pat =>
            let question := trimStr (replaceAllP pat content)
            let gen := generateAIResponse s w question
            Action.generate question :: Action.submitComment post.id gen.text ::
              (if submitOk then [Action.hIncrBy (strOf "posts_processed") 1] else [])
        else []
  else []

/-- The fixed reply posted for a comment whose extracted question is empty. -/
def emptyQuestionPrompt : Str :=
  strOf ("Please provide a question after the trigger keyword!")

/-- The `CommentCreate` `onEvent` handler, as its collaborator-call trace.
Gates as for posts, with the self check on `comment.author` versus the
agent's `username` and the keyword matched against the comment body; a
comment whose extracted question is empty gets the fixed prompt instead of
a generation, with no counter increment.  No call to `storeConversation`
appears anywhere in the source of this handler either. -/
def commentCreateHandler (s : Settings) (ev : Option Comment) (currentUser : Option User)
    (w : World) (submitOk : Bool) : List Action :=
  if s.autoReplyEnabled = some true then
    match ev with
    | none => []
    | some c =>
      if currentUser.map User.username = some c.author then []
      else
        let kw := effectiveKeyword s
        if containsCI kw c.body then
          match compileKeywordRegex kw with
          | none => []
          | some pat =>
            let question := trimStr (replaceAllP pat c.body)
            if question.isEmpty then [Action.submitComment c.id emptyQuestionPrompt]
            else
              let gen := generateAIResponse s w question
              Action.generate question :: Action.submitComment c.id gen.text ::
                (if submitOk then [Action.hIncrBy (strOf "comments_processed") 1] else [])
        else []
  else []

/-- The entry a sequence element decodes to. -/
def mkEntry (e : Nat × Str × Str) : ConvEntry := ⟨e.1, e.2.1, e.2.2⟩

/- ------------------------------------------------------------------
Theorems.
------------------------------------------------------------------ -/

/-- Inserting an element that is strictly after every element of the list
appends it at the end. -/
theorem zInsertSorted_eq_append (x : Nat × ConvEntry) (s : ZSet)
    (h : ∀ y ∈ s, entryKeyLeB x y = false) : zInsertSorted x s = s ++ [x] := by
  induction s with
  | nil => rfl
  | cons y ys ih =>
    simp only [zInsertSorted, h y (List.mem_cons_self y ys),
      ih fun z hz => h z (List.mem_cons_of_mem y hz)]
    simp

/-- `zAdd` of a member fresh to the set, with a score above every existing
score, appends at the end. -/
theorem zAdd_fresh (s : ZSet) (t : Nat) (m : ConvEntry)
    (hne : ∀ p ∈ s, p.2 ≠ m) (hlt : ∀ p ∈ s, p.1 < t) :
    zAdd s t m = s ++ [(t, m)] := by
  unfold zAdd
  rw [List.filter_eq_self.mpr (fun p hp => decide_eq_true (hne p hp))]
  refine zInsertSorted_eq_append _ _ (fun y hy => ?_)
  have hy' := hlt y hy
  simp only [entryKeyLeB, Bool.or_eq_false_iff, Bool.and_eq_false_iff,
    decide_eq_false_iff_not]
  constructor
  · omega
  · left; omega

/-- One `storeConversation` step on a state whose scores and member
timestamps all lie strictly below the new timestamp: the new entry goes to
the end, and when the state already holds 5 entries the oldest one (the
head) is evicted. -/
theorem storeConversation_step (s : ZSet) (t : Nat) (q a : Str)
    (hs : ∀ p ∈ s, p.1 < t) (hm : ∀ p ∈ s, p.2.timestamp < t)
    (hlen : s.length ≤ 5) :
    storeConversation s t q a =
      if s.length = 5 then s.tail ++ [(t, ⟨t, q, a⟩)]
      else s ++ [(t, ⟨t, q, a⟩)] := by
  have hne : ∀ p ∈ s, p.2 ≠ (⟨t, q, a⟩ : ConvEntry) := by
    intro p hp hcontra
    have := hm p hp
    rw [hcontra] at this
    exact absurd this (by simp)
  unfold storeConversation
  simp only [zAdd_fresh s t _ hne hs, zCard, List.length_append, List.length_cons,
    List.length_nil]
  by_cases h5 : s.length = 5
  · rw [if_pos (by omega), if_pos h5]
    unfold zRemRangeByRank
    rw [h5]
    norm_num
    exact List.tail_append_of_ne_nil (by intro hc; rw [hc] at h5; simp at h5)
  · rw [if_neg (by omega), if_neg h5]

/-- Characterization of a sequence of sequential appends for one user with
strictly increasing timestamps: the state is exactly the (at most) 5
most-recently-appended entries, in order of appending. -/
theorem appendSeq_eq_keepLast5 (l : List (Nat × Str × Str))
    (h : l.Pairwise (fun a b => a.1 < b.1)) :
    appendSeq l = (keepLast5 l).map toPair := by
  induction l using List.reverseRecOn with
  | nil => rfl
  | append_singleton l e ih =>
    rw [List.pairwise_append] at h
    obtain ⟨hl, -, hcross⟩ := h
    have he : ∀ x ∈ l, x.1 < e.1 := fun x hx => hcross x hx e (List.mem_singleton_self e)
    have hmem1 : ∀ p ∈ (keepLast5 l).map toPair, p.1 < e.1 := by
      intro p hp
      obtain ⟨x, hx, rfl⟩ := List.mem_map.mp hp
      exact he x (List.Sublist.mem hx (List.drop_sublist _ _))
    have hmem2 : ∀ p ∈ (keepLast5 l).map toPair, p.2.timestamp < e.1 := by
      intro p hp
      obtain ⟨x, hx, rfl⟩ := List.mem_map.mp hp
      exact he x (List.Sublist.mem hx (List.drop_sublist _ _))
    have hlen5 : ((keepLast5 l).map toPair).length ≤ 5 := by
      simp only [keepLast5, List.length_map, List.length_drop]
      omega
    have hfold : appendSeq (l ++ [e]) = storeConversation (appendSeq l) e.1 e.2.1 e.2.2 := by
      simp [appendSeq, List.foldl_append]
    rw [hfold, ih hl, storeConversation_step _ _ _ _ hmem1 hmem2 hlen5]
    by_cases hn : 5 ≤ l.length
    · rw [if_pos (by simp only [keepLast5, List.length_map, List.length_drop]; omega)]
      have h1 : ((keepLast5 l).map toPair).tail = ((l.drop (l.length - 4)).map toPair) := by
        rw [← List.map_tail, keepLast5, List.tail_drop]
        congr 2
        omega
      rw [h1, keepLast5, List.length_append]
      have h2 : l.length + [e].length - 5 = l.length - 4 := by
        simp only [List.length_singleton]; omega
      rw [h2, List.drop_append_of_le_length (by omega), List.map_append]
      rfl
    · rw [if_neg (by simp only [keepLast5, List.length_map, List.length_drop]; omega)]
      have h1 : keepLast5 l = l := by
        simp only [keepLast5]
        have : l.length - 5 = 0 := by omega
        rw [this, List.drop_zero]
      have h2 : keepLast5 (l ++ [e]) = l ++ [e] := by
        simp only [keepLast5, List.length_append]
        have : l.length + [e].length - 5 = 0 := by
          simp only [List.length_singleton]; omega
        rw [this, List.drop_zero]
      rw [h1, h2, List.map_append]
      rfl

/-- **C2**  For every user and every sequence of sequential
`storeConversation` appends (modelled by strictly increasing `Date.now()`
timestamps), the stored set never holds more than 5 entries; the state
after the whole sequence is exactly the 5 most-recently-appended entries
(all of them when fewer than 5), so the evicted entries are exactly the
oldest ones; and appending a 6th entry to a full state evicts exactly one
entry, the oldest (the head of the sorted state). -/
theorem conversationStore_bounded_eviction (l : List (Nat × Str × Str))
    (h : l.Pairwise (fun a b => a.1 < b.1)) :
    (∀ n, (appendSeq (l.take n)).length ≤ 5)
    ∧ appendSeq l = (keepLast5 l).map toPair
    ∧ (∀ e : Nat × Str × Str, (∀ x ∈ l, x.1 < e.1) → l.length = 5 →
        appendSeq (l ++ [e]) = (appendSeq l).tail ++ [toPair e]) := by
  refine ⟨?_, appendSeq_eq_keepLast5 l h, ?_⟩
  · intro n
    have hp : (l.take n).Pairwise (fun a b => a.1 < b.1) :=
      List.Pairwise.sublist (List.take_sublist n l) h
    rw [appendSeq_eq_keepLast5 _ hp]
    simp only [List.length_map, keepLast5, List.length_drop]
    omega
  · intro e hlt hlen
    have hch := appendSeq_eq_keepLast5 l h
    have hkeep : keepLast5 l = l := by
      simp only [keepLast5, hlen]
      norm_num
    have hfold : appendSeq (l ++ [e]) = storeConversation (appendSeq l) e.1 e.2.1 e.2.2 := by
      simp [appendSeq, List.foldl_append]
    have hmem1 : ∀ p ∈ (appendSeq l), p.1 < e.1 := by
      intro p hp
      rw [hch, hkeep] at hp
      obtain ⟨x, hx, rfl⟩ := List.mem_map.mp hp
      exact hlt x hx
    have hmem2 : ∀ p ∈ (appendSeq l), p.2.timestamp < e.1 := by
      intro p hp
      rw [hch, hkeep] at hp
      obtain ⟨x, hx, rfl⟩ := List.mem_map.mp hp
      exact hlt x hx
    have hlenS : (appendSeq l).length = 5 := by
      rw [hch, hkeep, List.length_map, hlen]
    rw [hfold, storeConversation_step _ _ _ _ hmem1 hmem2 (le_of_eq hlenS),
      if_pos hlenS]
    rfl

/-- Witness for C2: six sequential appends retain exactly the last five
entries, evicting the first. -/
theorem conversationStore_bounded_eviction_witness :
    appendSeq
        [(1, strOf "q1", strOf "a1"), (2, strOf "q2", strOf "a2"),
         (3, strOf "q3", strOf "a3"), (4, strOf "q4", strOf "a4"),
         (5, strOf "q5", strOf "a5"), (6, strOf "q6", strOf "a6")] =
      [(2, ⟨2, strOf "q2", strOf "a2"⟩), (3, ⟨3, strOf "q3", strOf "a3"⟩),
       (4, ⟨4, strOf "q4", strOf "a4"⟩), (5, ⟨5, strOf "q5", strOf "a5"⟩),
       (6, ⟨6, strOf "q6", strOf "a6"⟩)] :=
  ((conversationStore_bounded_eviction
      [(1, strOf "q1", strOf "a1"), (2, strOf "q2", strOf "a2"),
       (3, strOf "q3", strOf "a3"), (4, strOf "q4", strOf "a4"),
       (5, strOf "q5", strOf "a5"), (6, strOf "q6", strOf "a6")]
      (by decide)).2.1).trans (by decide)

/-- **C6**  For every user, after any sequence of sequential appends with
strictly increasing timestamps, `getConversationHistory` returns exactly
the (at most) 5 most-recently-appended entries, in ascending timestamp
order; and a user with no history gets the empty sequence. -/
theorem getConversationHistory_spec (l : List (Nat × Str × Str))
    (h : l.Pairwise (fun a b => a.1 < b.1)) :
    getConversationHistory (appendSeq l) = (keepLast5 l).map mkEntry
    ∧ (getConversationHistory (appendSeq l)).length ≤ 5
    ∧ (getConversationHistory (appendSeq l)).Pairwise
        (fun a b => a.timestamp < b.timestamp)
    ∧ getConversationHistory ([] : ZSet) = [] := by
  have hch := appendSeq_eq_keepLast5 l h
  have hlen : ((keepLast5 l).map toPair).length ≤ 5 := by
    simp only [List.length_map, keepLast5, List.length_drop]
    omega
  have hhist : getConversationHistory (appendSeq l) = (keepLast5 l).map mkEntry := by
    rw [hch]
    unfold getConversationHistory zRange
    rw [List.drop_zero, List.take_of_length_le (by simpa using hlen), List.map_map]
    rfl
  refine ⟨hhist, ?_, ?_, rfl⟩
  · rw [hhist]
    simp only [List.length_map, keepLast5, List.length_drop]
    omega
  · rw [hhist, List.pairwise_map]
    exact List.Pairwise.sublist (List.drop_sublist _ _) h

/-- Witness for C6: the history after six sequential appends is the last
five entries in ascending timestamp order; an empty store yields `[]`. -/
theorem getConversationHistory_spec_witness :
    getConversationHistory
        (appendSeq
          [(1, strOf "q1", strOf "a1"), (2, strOf "q2", strOf "a2"),
           (3, strOf "q3", strOf "a3"), (4, strOf "q4", strOf "a4"),
           (5, strOf "q5", strOf "a5"), (6, strOf "q6", strOf "a6")]) =
      [⟨2, strOf "q2", strOf "a2"⟩, ⟨3, strOf "q3", strOf "a3"⟩,
       ⟨4, strOf "q4", strOf "a4"⟩, ⟨5, strOf "q5", strOf "a5"⟩,
       ⟨6, strOf "q6", strOf "a6"⟩] :=
  ((getConversationHistory_spec
      [(1, strOf "q1", strOf "a1"), (2, strOf "q2", strOf "a2"),
       (3, strOf "q3", strOf "a3"), (4, strOf "q4", strOf "a4"),
       (5, strOf "q5", strOf "a5"), (6, strOf "q6", strOf "a6")]
      (by decide)).1).trans (by decide)

/-- **C4**  When the `auto_reply_enabled` setting is `false`, both handlers
stop at the first gate: the trace is empty, so in particular no
`generateAIResponse` call and no `submitComment` call is made, whatever
the event text contains. -/
theorem autoReplyDisabled_no_actions (s : Settings) (evP : Option Post)
    (evC : Option Comment) (cu : Option User) (w : World) (submitOk : Bool)
    (h : s.autoReplyEnabled = some false) :
    postSubmitHandler s evP cu w submitOk = []
    ∧ commentCreateHandler s evC cu w submitOk = [] := by
  constructor
  · simp [postSubmitHandler, h]
  · simp [commentCreateHandler, h]

/-- Witness for C4: a keyword-bearing post and comment produce no actions
when auto-reply is off. -/
theorem autoReplyDisabled_no_actions_witness :
    postSubmitHandler ⟨some (strOf "k"), none, none, some false, some (strOf "!ask")⟩
        (some ⟨strOf "p1", strOf "t2_a", strOf "!ask hello", none⟩) none
        ⟨FetchOutcome.netErr, FetchOutcome.netErr⟩ true = []
    ∧ commentCreateHandler ⟨some (strOf "k"), none, none, some false, some (strOf "!ask")⟩
        (some ⟨strOf "c1", strOf "alice", strOf "!ask hello"⟩) none
        ⟨FetchOutcome.netErr, FetchOutcome.netErr⟩ true = [] :=
  autoReplyDisabled_no_actions _ _ _ _ _ _ rfl

/-- **C7**  An event authored by the agent itself (post `authorId` equal to
the current user's `id`, or comment `author` equal to the current user's
`username`) produces an empty trace: the handler stops no later than the
self-authorship gate, before keyword matching, generation or posting. -/
theorem selfAuthorship_no_reply (s : Settings) (p : Post) (c : Comment) (u : User)
    (w : World) (submitOk : Bool)
    (hp : p.authorId = u.id) (hc : c.author = u.username) :
    postSubmitHandler s (some p) (some u) w submitOk = []
    ∧ commentCreateHandler s (some c) (some u) w submitOk = [] := by
  constructor
  · simp [postSubmitHandler, hp]
  · simp [commentCreateHandler, hc]

/-- Witness for C7: the agent's own keyword-bearing post and comment get no
reply. -/
theorem selfAuthorship_no_reply_witness :
    postSubmitHandler ⟨some (strOf "k"), none, none, some true, some (strOf "!ask")⟩
        (some ⟨strOf "p1", strOf "t2_bot", strOf "!ask hello", none⟩)
        (some ⟨strOf "t2_bot", strOf "redditor-bot"⟩)
        ⟨FetchOutcome.netErr, FetchOutcome.netErr⟩ true = []
    ∧ commentCreateHandler ⟨some (strOf "k"), none, none, some true, some (strOf "!ask")⟩
        (some ⟨strOf "c1", strOf "redditor-bot", strOf "!ask hello"⟩)
        (some ⟨strOf "t2_bot", strOf "redditor-bot"⟩)
        ⟨FetchOutcome.netErr, FetchOutcome.netErr⟩ true = [] :=
  selfAuthorship_no_reply _ _ _ _ _ _ rfl rfl

/-- **C8**  The keyword gate is a case-insensitive substring match of the
effective trigger keyword against the event's raw text (title plus body
for posts, body for comments): when the match fails the handler's trace is
empty, and the keyword `"!ask"` matches text containing `"!ASK"` or
`"!Ask"`. -/
theorem keywordGate_case_insensitive :
    (∀ (s : Settings) (p : Post) (cu : Option User) (w : World) (ok : Bool),
        containsCI (effectiveKeyword s) (postContent p) = false →
        postSubmitHandler s (some p) cu w ok = [])
    ∧ (∀ (s : Settings) (c : Comment) (cu : Option User) (w : World) (ok : Bool),
        containsCI (effectiveKeyword s) c.body = false →
        commentCreateHandler s (some c) cu w ok = [])
    ∧ containsCI (strOf "!ask") (strOf "please !ASK me something") = true
    ∧ containsCI (strOf "!ask") (strOf "!Ask about plants") = true := by
  refine ⟨?_, ?_, by decide, by decide⟩
  · intro s p cu w ok h
    simp [postSubmitHandler, h]
  · intro s c cu w ok h
    simp [commentCreateHandler, h]

/-- Witness for C8: a post and a comment not containing the keyword in any
case produce no actions. -/
theorem keywordGate_case_insensitive_witness :
    postSubmitHandler ⟨some (strOf "k"), none, none, some true, some (strOf "!ask")⟩
        (some ⟨strOf "p1", strOf "t2_a", strOf "just a title", some (strOf "and a body")⟩)
        none ⟨FetchOutcome.netErr, FetchOutcome.netErr⟩ true = []
    ∧ commentCreateHandler ⟨some (strOf "k"), none, none, some true, some (strOf "!ask")⟩
        (some ⟨strOf "c1", strOf "alice", strOf "ask away"⟩) none
        ⟨FetchOutcome.netErr, FetchOutcome.netErr⟩ true = [] :=
  ⟨keywordGate_case_insensitive.1 _ _ _ _ _ (by decide),
   keywordGate_case_insensitive.2.1 _ _ _ _ _ (by decide)⟩

/-- **C5**  A comment whose text, after the keyword regex is stripped and
whitespace trimmed, is empty gets exactly the fixed prompt reply and no
generation call (and no counter increment); a post in the same situation
is not special-cased and proceeds to generation with the empty question. -/
theorem emptyQuestion_asymmetry :
    (∀ (s : Settings) (c : Comment) (cu : Option User) (w : World) (ok : Bool)
        (pat : List KwAtom),
        s.autoReplyEnabled = some true →
        cu.map User.username ≠ some c.author →
        containsCI (effectiveKeyword s) c.body = true →
        compileKeywordRegex (effectiveKeyword s) = some pat →
        trimStr (replaceAllP pat c.body) = [] →
        commentCreateHandler s (some c) cu w ok =
          [Action.submitComment c.id emptyQuestionPrompt])
    ∧ (∀ (s : Settings) (p : Post) (cu : Option User) (w : World) (ok : Bool)
        (pat : List KwAtom),
        s.autoReplyEnabled = some true →
        cu.map User.id ≠ some p.authorId →
        containsCI (effectiveKeyword s) (postContent p) = true →
        compileKeywordRegex (effectiveKeyword s) = some pat →
        trimStr (replaceAllP pat (postContent p)) = [] →
        postSubmitHandler s (some p) cu w ok =
          Action.generate [] ::
            Action.submitComment p.id (generateAIResponse s w []).text ::
            (if ok then [Action.hIncrBy (strOf "posts_processed") 1] else [])) := by
  constructor
  · intro s c cu w ok pat h1 h2 h3 h4 h5
    simp [commentCreateHandler, h1, h2, h3, h4, h5]
  · intro s p cu w ok pat h1 h2 h3 h4 h5
    simp [postSubmitHandler, h1, h2, h3, h4, h5]

/-- Witness for C5: comment body `"!ask  "` yields only the fixed prompt;
a post whose title is the bare keyword proceeds to generation with the
empty question. -/
theorem emptyQuestion_asymmetry_witness :
    commentCreateHandler ⟨some (strOf "k"), none, none, some true, some (strOf "!ask")⟩
        (some ⟨strOf "c1", strOf "alice", strOf "!ask  "⟩) none
        ⟨FetchOutcome.netErr, FetchOutcome.netErr⟩ true =
      [Action.submitComment (strOf "c1") emptyQuestionPrompt]
    ∧ postSubmitHandler ⟨some (strOf "k"), none, none, some true, some (strOf "!ask")⟩
        (some ⟨strOf "p1", strOf "t2_a", strOf "!ask", some (strOf "")⟩) none
        ⟨FetchOutcome.netErr, FetchOutcome.netErr⟩ true =
      Action.generate [] ::
        Action.submitComment (strOf "p1")
          (generateAIResponse ⟨some (strOf "k"), none, none, some true, some (strOf "!ask")⟩
            ⟨FetchOutcome.netErr, FetchOutcome.netErr⟩ []).text ::
        [Action.hIncrBy (strOf "posts_processed") 1] :=
  ⟨emptyQuestion_asymmetry.1 _ _ _ _ _ ((strOf "!ask").map KwAtom.lit)
      rfl (by decide) (by decide) (by decide) (by decide),
   emptyQuestion_asymmetry.2 _ _ _ _ _ ((strOf "!ask").map KwAtom.lit)
      rfl (by decide) (by decide) (by decide) (by decide)⟩

/-- **C1**  Evaluation of the comment pipeline at a fully passing event
(auto-reply on, keyword `"!ask"`, body `"!ask what is photosynthesis"`,
author distinct from the agent, provider success, successful submit): the
reply is posted and `comments_processed` is incremented by 1, but NO
conversation-store append occurs — the source of both triggers never calls
`storeConversation`, although the spec (and the repository README's
"stores conversation history in Redis") says a history entry is appended
for the event's author on success. -/
theorem commentPipeline_no_history_append :
    commentCreateHandler
        ⟨some (strOf "k"), none, none, some true, some (strOf "!ask")⟩
        (some ⟨strOf "c1", strOf "alice", strOf "!ask what is photosynthesis"⟩)
        (some ⟨strOf "t2_bot", strOf "redditor-bot"⟩)
        ⟨FetchOutcome.resp true 200
            (OAIData.parsed (some [⟨some ⟨some (strOf "Light becomes sugar.")⟩⟩])),
          FetchOutcome.netErr⟩
        true =
      [Action.generate (strOf "what is photosynthesis"),
       Action.submitComment (strOf "c1") (strOf "Light becomes sugar."),
       Action.hIncrBy (strOf "comments_processed") 1]
    ∧ (commentCreateHandler
        ⟨some (strOf "k"), none, none, some true, some (strOf "!ask")⟩
        (some ⟨strOf "c1", strOf "alice", strOf "!ask what is photosynthesis"⟩)
        (some ⟨strOf "t2_bot", strOf "redditor-bot"⟩)
        ⟨FetchOutcome.resp true 200
            (OAIData.parsed (some [⟨some ⟨some (strOf "Light becomes sugar.")⟩⟩])),
          FetchOutcome.netErr⟩
        true).all (fun a => !(a.isStoreConv)) = true := by
  decide

/-- Counterexample to C3 as stated: a provider response that is ok at the
HTTP level but malformed at the payload level (an empty `choices` array)
makes `generateAIResponse` return the fixed `"Unable to generate
response."` default — not the apologetic fallback — and emit no failure
log. -/
theorem generate_malformed_payload_not_apology :
    (generateAIResponse ⟨some (strOf "k"), none, none, some true, some (strOf "!ask")⟩
        ⟨FetchOutcome.resp true 200 (OAIData.parsed (some [])), FetchOutcome.netErr⟩
        (strOf "q")).text = unableMsg
    ∧ (generateAIResponse ⟨some (strOf "k"), none, none, some true, some (strOf "!ask")⟩
        ⟨FetchOutcome.resp true 200 (OAIData.parsed (some [])), FetchOutcome.netErr⟩
        (strOf "q")).logs = []
    ∧ ¬ (unableMsg = apologyMsg) := by
  decide

/-- **C3 (amended)**  `generateAIResponse` is total by construction (its
codomain is a result record, never a propagated failure).  For the
selected provider: an absent credential yields the fixed not-configured
message with no network call and no log; a throwing provider call
(network failure, non-ok status, unparseable body, or a body with no
`choices`/`content` array) yields the fixed apologetic fallback plus a log
naming the provider; an ok response with a parsed array yields the
extracted text, with the fixed `"Unable to generate response."` default —
not the apology — when the text path is absent or empty. -/
theorem generate_total_fallback (s : Settings) (w : World) (q : Str) :
    (selectedProvider s = strOf "openai" →
      (strFalsy s.openaiKey = true →
        generateAIResponse s w q = ⟨oaiNotConfigured, none, []⟩)
      ∧ (strFalsy s.openaiKey = false → oaiThrowing w.oai = true →
          generateAIResponse s w q =
            ⟨apologyMsg, some (oaiRequest q), [genErrorLog (strOf "openai")]⟩)
      ∧ (∀ (st : Nat) (cs : List OAIChoice), strFalsy s.openaiKey = false →
          w.oai = FetchOutcome.resp true st (OAIData.parsed (some cs)) →
          generateAIResponse s w q =
            ⟨jsOrStr (oaiContentOf cs) unableMsg, some (oaiRequest q), []⟩))
    ∧ (selectedProvider s = strOf "anthropic" →
      (strFalsy s.anthropicKey = true →
        generateAIResponse s w q = ⟨anthNotConfigured, none, []⟩)
      ∧ (strFalsy s.anthropicKey = false → anthThrowing w.anth = true →
          generateAIResponse s w q =
            ⟨apologyMsg, some (anthRequest q), [genErrorLog (strOf "anthropic")]⟩)
      ∧ (∀ (st : Nat) (bs : List AnthBlock), strFalsy s.anthropicKey = false →
          w.anth = FetchOutcome.resp true st (AnthData.parsed (some bs)) →
          generateAIResponse s w q =
            ⟨jsOrStr (anthTextOf bs) unableMsg, some (anthRequest q), []⟩)) := by
  constructor
  · intro hsel
    have hne : ¬ (selectedProvider s = strOf "anthropic") := by
      rw [hsel]; decide
    have hdiff : ¬ (strOf "openai" = strOf "anthropic") := by decide
    refine ⟨?_, ?_, ?_⟩
    · intro hk
      simp [generateAIResponse, hne, generateOpenAIResponse, hk]
    · intro hk hthrow
      cases hw : w.oai with
      | netErr =>
        simp [generateAIResponse, hne, hdiff, generateOpenAIResponse, hk, hw, hsel]
      | resp ok st data =>
        rw [hw] at hthrow
        cases ok with
        | false =>
          simp [generateAIResponse, hne, hdiff, generateOpenAIResponse, hk, hw, hsel]
        | true =>
          cases data with
          | notJson =>
            simp [generateAIResponse, hne, hdiff, generateOpenAIResponse, hk, hw, hsel]
          | parsed co =>
            cases co with
            | none =>
              simp [generateAIResponse, hne, hdiff, generateOpenAIResponse, hk, hw, hsel]
            | some cs =>
              simp [oaiThrowing] at hthrow
    · intro st cs hk hw
      simp [generateAIResponse, hne, generateOpenAIResponse, hk, hw]
  · intro hsel
    refine ⟨?_, ?_, ?_⟩
    · intro hk
      simp [generateAIResponse, hsel, generateAnthropicResponse, hk]
    · intro hk hthrow
      cases hw : w.anth with
      | netErr =>
        simp [generateAIResponse, hsel, generateAnthropicResponse, hk, hw]
      | resp ok st data =>
        rw [hw] at hthrow
        cases ok with
        | false =>
          simp [generateAIResponse, hsel, generateAnthropicResponse, hk, hw]
        | true =>
          cases data with
          | notJson =>
            simp [generateAIResponse, hsel, generateAnthropicResponse, hk, hw]
          | parsed co =>
            cases co with
            | none =>
              simp [generateAIResponse, hsel, generateAnthropicResponse, hk, hw]
            | some bs =>
              simp [anthThrowing] at hthrow
    · intro st bs hk hw
      simp [generateAIResponse, hsel, generateAnthropicResponse, hk, hw]

set_option maxRecDepth 8000 in
/-- Witness for C3 (amended): the three OpenAI branches and a throwing
Anthropic branch, each at a concrete input. -/
theorem generate_total_fallback_witness :
    generateAIResponse ⟨none, none, none, none, none⟩
        ⟨FetchOutcome.netErr, FetchOutcome.netErr⟩ (strOf "q")
      = ⟨oaiNotConfigured, none, []⟩
    ∧ generateAIResponse ⟨some (strOf "k"), none, none, none, none⟩
        ⟨FetchOutcome.netErr, FetchOutcome.netErr⟩ (strOf "q")
      = ⟨apologyMsg, some (oaiRequest (strOf "q")), [genErrorLog (strOf "openai")]⟩
    ∧ generateAIResponse ⟨some (strOf "k"), none, none, none, none⟩
        ⟨FetchOutcome.resp true 200
            (OAIData.parsed (some [⟨some ⟨some (strOf "hi")⟩⟩])),
          FetchOutcome.netErr⟩ (strOf "q")
      = ⟨strOf "hi", some (oaiRequest (strOf "q")), []⟩
    ∧ generateAIResponse ⟨none, some (strOf "k"), some [strOf "anthropic"], none, none⟩
        ⟨FetchOutcome.netErr, FetchOutcome.resp false 500 AnthData.notJson⟩ (strOf "q")
      = ⟨apologyMsg, some (anthRequest (strOf "q")), [genErrorLog (strOf "anthropic")]⟩ :=
  ⟨((generate_total_fallback ⟨none, none, none, none, none⟩
        ⟨FetchOutcome.netErr, FetchOutcome.netErr⟩ (strOf "q")).1 (by decide)).1 (by decide),
   ((generate_total_fallback ⟨some (strOf "k"), none, none, none, none⟩
        ⟨FetchOutcome.netErr, FetchOutcome.netErr⟩ (strOf "q")).1 (by decide)).2.1
      (by decide) (by decide),
   (((generate_total_fallback ⟨some (strOf "k"), none, none, none, none⟩
        ⟨FetchOutcome.resp true 200
            (OAIData.parsed (some [⟨some ⟨some (strOf "hi")⟩⟩])),
          FetchOutcome.netErr⟩ (strOf "q")).1 (by decide)).2.2 200
      [⟨some ⟨some (strOf "hi")⟩⟩] (by decide) rfl).trans (by decide),
   ((generate_total_fallback ⟨none, some (strOf "k"), some [strOf "anthropic"], none, none⟩
        ⟨FetchOutcome.netErr, FetchOutcome.resp false 500 AnthData.notJson⟩ (strOf "q")).2
      (by decide)).2.1 (by decide) (by decide)⟩

set_option maxRecDepth 8000 in
/-- Counterexample to C9 as stated: the Anthropic request body caps
`max_tokens` at 500 but carries NO temperature property at all, so the
sampling temperature is not fixed at 0.7 for that provider. -/
theorem anthropic_request_no_temperature :
    (generateAnthropicResponse ⟨none, some (strOf "k"), none, none, none⟩
        FetchOutcome.netErr (strOf "q")).request = some (anthRequest (strOf "q"))
    ∧ (anthRequest (strOf "q")).maxTokens = 500
    ∧ (anthRequest (strOf "q")).temperature = none
    ∧ ¬ ((anthRequest (strOf "q")).temperature = some (strOf "0.7")) := by
  decide

/-- **C9 (amended)**  Whenever a provider call is made (the credential is
present), the request caps the output at 500 tokens for both providers;
the OpenAI request fixes the sampling temperature at 0.7, while the
Anthropic request omits the temperature field. -/
theorem provider_request_constraints (s : Settings) (wo : FetchOutcome OAIData)
    (wa : FetchOutcome AnthData) (q : Str) :
    (strFalsy s.openaiKey = false →
      (generateOpenAIResponse s wo q).request = some (oaiRequest q)
      ∧ (oaiRequest q).maxTokens = 500
      ∧ (oaiRequest q).temperature = some (strOf "0.7"))
    ∧ (strFalsy s.anthropicKey = false →
      (generateAnthropicResponse s wa q).request = some (anthRequest q)
      ∧ (anthRequest q).maxTokens = 500
      ∧ (anthRequest q).temperature = none) := by
  constructor
  · intro hk
    refine ⟨?_, rfl, rfl⟩
    cases wo with
    | netErr => simp [generateOpenAIResponse, hk]
    | resp ok st data =>
      cases ok with
      | false => simp [generateOpenAIResponse, hk]
      | true =>
        cases data with
        | notJson => simp [generateOpenAIResponse, hk]
        | parsed co =>
          cases co with
          | none => simp [generateOpenAIResponse, hk]
          | some cs => simp [generateOpenAIResponse, hk]
  · intro hk
    refine ⟨?_, rfl, rfl⟩
    cases wa with
    | netErr => simp [generateAnthropicResponse, hk]
    | resp ok st data =>
      cases ok with
      | false => simp [generateAnthropicResponse, hk]
      | true =>
        cases data with
        | notJson => simp [generateAnthropicResponse, hk]
        | parsed co =>
          cases co with
          | none => simp [generateAnthropicResponse, hk]
          | some bs => simp [generateAnthropicResponse, hk]

/-- Witness for C9 (amended): both requests at a concrete input. -/
theorem provider_request_constraints_witness :
    (generateOpenAIResponse ⟨some (strOf "k"), some (strOf "k2"), none, none, none⟩
        FetchOutcome.netErr (strOf "q")).request = some (oaiRequest (strOf "q"))
    ∧ (oaiRequest (strOf "q")).temperature = some (strOf "0.7")
    ∧ (generateAnthropicResponse ⟨some (strOf "k"), some (strOf "k2"), none, none, none⟩
        FetchOutcome.netErr (strOf "q")).request = some (anthRequest (strOf "q"))
    ∧ (anthRequest (strOf "q")).temperature = none :=
  ⟨((provider_request_constraints ⟨some (strOf "k"), some (strOf "k2"), none, none, none⟩
        FetchOutcome.netErr FetchOutcome.netErr (strOf "q")).1 (by decide)).1,
   ((provider_request_constraints ⟨some (strOf "k"), some (strOf "k2"), none, none, none⟩
        FetchOutcome.netErr FetchOutcome.netErr (strOf "q")).1 (by decide)).2.2,
   ((provider_request_constraints ⟨some (strOf "k"), some (strOf "k2"), none, none, none⟩
        FetchOutcome.netErr FetchOutcome.netErr (strOf "q")).2 (by decide)).1,
   ((provider_request_constraints ⟨some (strOf "k"), some (strOf "k2"), none, none, none⟩
        FetchOutcome.netErr FetchOutcome.netErr (strOf "q")).2 (by decide)).2.2⟩

/-- A keyword with no regular-expression metacharacter compiles to the
literal pattern of its characters. -/
theorem compile_noMeta (kw : Str) (h : kw.all (fun c => !(isRegexMeta c)) = true) :
    compileKeywordRegex kw = some (kw.map KwAtom.lit) := by
  induction kw with
  | nil => rfl
  | cons c rest ih =>
    rw [List.all_cons, Bool.and_eq_true] at h
    obtain ⟨hc, hrest⟩ := h
    have hmeta : isRegexMeta c = false := by
      cases hm : isRegexMeta c with
      | false => rfl
      | true => rw [hm] at hc; exact absurd hc (by decide)
    have hdot : ¬ (c = '.') := by
      intro hc'
      rw [hc'] at hmeta
      exact absurd hmeta (by decide)
    simp only [compileKeywordRegex, List.foldr_cons] at ih ⊢
    rw [ih hrest]
    simp [hdot, hmeta]

/-- Matching the literal pattern of a keyword against a prefix of `s` is
exactly the case-insensitive prefix test, and on success consumes the
keyword's length. -/
theorem matchesAt_lit (kw : Str) (s : Str) :
    matchesAt (kw.map KwAtom.lit) s =
      if (lowerStr kw).isPrefixOf (lowerStr s) then some (s.drop kw.length) else none := by
  induction kw generalizing s with
  | nil => simp [matchesAt, lowerStr, List.isPrefixOf]
  | cons k kw' ih =>
    cases s with
    | nil => simp [matchesAt, lowerStr, List.isPrefixOf]
    | cons c s' =>
      simp only [List.map_cons, matchesAt, atomMatches, lowerStr,
        List.isPrefixOf_cons₂]
      by_cases hck : c.toLower = k.toLower
      · have hbeq : (k.toLower == c.toLower) = true := by
          rw [hck]
          exact beq_self_eq_true _
        simp [hck, hbeq, ih, lowerStr]
      · have hbeq : (k.toLower == c.toLower) = false := by
          rw [beq_eq_false_iff_ne]
          exact fun hh => hck hh.symm
        simp [hck, hbeq]

/-- On every fuel, the replacement scan for the literal pattern of a
keyword coincides with the literal stripping scan of the spec's wording. -/
theorem replaceAux_lit_eq_specAux (kw : Str) (fuel : Nat) : ∀ s : Str,
    replaceAllPAux (kw.map KwAtom.lit) fuel s = specStripAux kw fuel s := by
  induction fuel with
  | zero =>
    intro s
    cases s <;> rfl
  | succ fuel ih =>
    intro s
    cases s with
    | nil => rfl
    | cons c rest =>
      cases kw with
      | nil =>
        have hm : matchesAt (List.map KwAtom.lit []) (c :: rest) = some (c :: rest) := rfl
        simp only [List.map_nil] at hm ih ⊢
        simp only [replaceAllPAux, specStripAux, hm]
        have hcond : ¬(List.isEmpty ([] : Str) = false
            ∧ List.isPrefixOf (lowerStr []) (lowerStr (c :: rest)) = true) := by
          simp
        rw [if_pos (trivial : True), if_neg hcond, ih rest]
      | cons k kw' =>
        have hm := matchesAt_lit (k :: kw') (c :: rest)
        by_cases hpre : (lowerStr (k :: kw')).isPrefixOf (lowerStr (c :: rest)) = true
        · rw [if_pos hpre] at hm
          have hlen : ¬ (((c :: rest).drop (k :: kw').length).length = (c :: rest).length) := by
            simp only [List.length_drop, List.length_cons]
            omega
          have hdrop : (c :: rest).drop (k :: kw').length = rest.drop ((k :: kw').length - 1) := by
            simp
          simp only [replaceAllPAux, specStripAux, hm]
          rw [if_neg hlen, hdrop, ih]
          rw [if_pos ⟨rfl, hpre⟩]
        · rw [if_neg hpre] at hm
          simp only [replaceAllPAux, specStripAux, hm]
          rw [if_neg (fun hh => hpre hh.2)]
          rw [ih rest]

/-- With enough fuel, the `.` pattern's replacement scan erases every
character of a line-terminator-free text. -/
theorem replaceAux_dot_empty : ∀ (fuel : Nat) (s : Str), s.length ≤ fuel →
    s.all (fun c => !(isLineTerm c)) = true → replaceAllPAux [KwAtom.dot] fuel s = [] := by
  intro fuel
  induction fuel with
  | zero =>
    intro s hlen _
    cases s with
    | nil => rfl
    | cons c rest => simp at hlen
  | succ fuel ih =>
    intro s hlen hall
    cases s with
    | nil => rfl
    | cons c rest =>
      rw [List.all_cons, Bool.and_eq_true] at hall
      obtain ⟨hc, hrest⟩ := hall
      have hm : matchesAt [KwAtom.dot] (c :: rest) = some rest := by
        simp [matchesAt, atomMatches, hc]
      simp only [replaceAllPAux, hm]
      rw [if_neg (by simp)]
      exact ih rest (by simp only [List.length_cons] at hlen; omega) hrest

/-- **C10**  The configured trigger keyword is treated as a regex PATTERN:
(a) for every keyword free of regex metacharacters the compiled pattern is
the literal one and stripping it coincides with removing all
case-insensitive literal occurrences (so after trimming, the extracted
question is the claim's literal reading); (b) the keyword `"."` compiles
to the wildcard, which erases every character of a line-terminator-free
text — in particular `"ab"`, which literal stripping would leave intact;
(c) a keyword that is not a valid regex, such as `"("`, makes the `RegExp`
construction throw inside the handler's try/catch, so both handlers
produce no action at all. -/
theorem keyword_treated_as_regex :
    (∀ kw text : Str, kw.all (fun c => !(isRegexMeta c)) = true →
        compileKeywordRegex kw = some (kw.map KwAtom.lit)
        ∧ replaceAllP (kw.map KwAtom.lit) text = specStripCI kw text)
    ∧ (compileKeywordRegex (strOf ".") = some [KwAtom.dot]
      ∧ (∀ text : Str, text.all (fun c => !(isLineTerm c)) = true →
          replaceAllP [KwAtom.dot] text = [])
      ∧ replaceAllP [KwAtom.dot] (strOf "ab") = []
      ∧ specStripCI (strOf ".") (strOf "ab") = strOf "ab")
    ∧ (compileKeywordRegex (strOf "(") = none
      ∧ (∀ (s : Settings) (evc : Option Comment) (evp : Option Post)
            (cu : Option User) (w : World) (ok : Bool),
          s.triggerKeyword = some (strOf "(") →
          commentCreateHandler s evc cu w ok = []
          ∧ postSubmitHandler s evp cu w ok = [])) := by
  refine ⟨?_, ⟨by decide, ?_, by decide, by decide⟩, ⟨by decide, ?_⟩⟩
  · intro kw text hmeta
    exact ⟨compile_noMeta kw hmeta, replaceAux_lit_eq_specAux kw text.length text⟩
  · intro text h
    exact replaceAux_dot_empty text.length text le_rfl h
  · intro s evc evp cu w ok h
    have hkw : effectiveKeyword s = strOf "(" := by rw [effectiveKeyword, h]; rfl
    have hc : compileKeywordRegex (strOf "(") = none := by decide
    constructor
    · cases evc with
      | none => simp [commentCreateHandler]
      | some c => simp [commentCreateHandler, hkw, hc]
    · cases evp with
      | none => simp [postSubmitHandler]
      | some p => simp [postSubmitHandler, hkw, hc]

/-- Witness for C10: the metacharacter-free keyword `"!ask"`, the wildcard
keyword `"."`, and the invalid keyword `"("`, each at concrete inputs. -/
theorem keyword_treated_as_regex_witness :
    (compileKeywordRegex (strOf "!ask") = some ((strOf "!ask").map KwAtom.lit)
      ∧ replaceAllP ((strOf "!ask").map KwAtom.lit) (strOf "x!ASKy!asky") =
          specStripCI (strOf "!ask") (strOf "x!ASKy!asky"))
    ∧ replaceAllP [KwAtom.dot] (strOf "what is this") = []
    ∧ (commentCreateHandler ⟨some (strOf "k"), none, none, some true, some (strOf "(")⟩
          (some ⟨strOf "c3", strOf "alice", strOf "(x"⟩)
          (some ⟨strOf "t2_bot", strOf "redditor-bot"⟩)
          ⟨FetchOutcome.netErr, FetchOutcome.netErr⟩ true = []
      ∧ postSubmitHandler ⟨some (strOf "k"), none, none, some true, some (strOf "(")⟩
          (some ⟨strOf "p3", strOf "t2_a", strOf "(x", none⟩)
          (some ⟨strOf "t2_bot", strOf "redditor-bot"⟩)
          ⟨FetchOutcome.netErr, FetchOutcome.netErr⟩ true = []) :=
  ⟨keyword_treated_as_regex.1 (strOf "!ask") (strOf "x!ASKy!asky") (by decide),
   keyword_treated_as_regex.2.1.2.1 (strOf "what is this") (by decide),
   keyword_treated_as_regex.2.2.2 _ _ _ _ _ _ rfl⟩

end Redditor
